import Mathlib

/-!
# The Platform backend — shallow embedding

A Lean model of the content-moderation REST backend in
`src/backend_server.js` (duplicated in `src/unnamed/part_000`).
Each HTTP handler becomes a pure function from a request and the store
state (`DB`) to a response (status code plus body) and a new store state.

Request-body fields are modelled as `Option String` (`none` = the field is
absent from the JSON body, mirroring JavaScript `undefined`); JavaScript
truthiness tests (`!x`, `x || d`) are modelled by `falsyStr` and `jsOr`.

The PostgreSQL schema constraints declared in `initDb` are part of the
model: `NOT NULL` columns, the `CHECK (status IN ...)` enumerations and the
`article_id ... REFERENCES articles(id) ON DELETE CASCADE` foreign key.
A constraint violation makes the statement fail; routes wrapped in
`asyncHandler` surface it as a 500 via the global error handler, while the
try/catch routes (comments, support) answer 400.
-/

/-- JavaScript falsiness of an optional string body field:
`!x` is true when the field is absent (`undefined`/`null`) or `""`. -/
def falsyStr : Option String → Bool
  | none => true
  | some s => s == ""

/-- JavaScript `x || d` for an optional string field. -/
def jsOr (v : Option String) (d : String) : String :=
  match v with
  | none => d
  | some s => if s == "" then d else s

/-- JavaScript truthiness of an optional boolean field: `x || false`. -/
def truthyBool : Option Bool → Bool
  | some true => true
  | _ => false

/-- A row of the `articles` table.  `title` and `category` are `NOT NULL`;
`status` is nullable but constrained by
`CHECK (status IN ('pending', 'published', 'rejected'))` when present. -/
structure Article where
  id : Nat
  title : String
  category : String
  author : Option String
  date : Nat
  image : Option String
  excerpt : Option String
  content : Option String
  views : Nat
  status : Option String
  isBreaking : Option Bool
  subHeadline : Option String
deriving Repr, DecidableEq

/-- A row of the `ads` table.  `client_name`, `email`, `plan` are
`NOT NULL`; `status` is constrained to pending/active/rejected. -/
structure Ad where
  id : Nat
  clientName : String
  email : String
  plan : String
  amount : Option String
  status : Option String
  dateSubmitted : Nat
  receiptImage : Option String
  adImage : Option String
  adContent : Option String
  adUrl : Option String
  adHeadline : Option String
  adContentFile : Option String
deriving Repr, DecidableEq

/-- A row of the `comments` table.  `article_id` is a nullable foreign key
into `articles` with `ON DELETE CASCADE`. -/
structure Comment where
  id : Nat
  articleId : Option Nat
  author : String
  email : String
  content : String
  date : Nat
deriving Repr, DecidableEq

/-- A row of the `support_messages` table. -/
structure SupportMessage where
  id : Nat
  name : String
  email : String
  subject : Option String
  message : String
  date : Nat
  status : String
deriving Repr, DecidableEq

/-- The whole store: the four tables plus the `SERIAL` id sequences. -/
structure DB where
  articles : List Article
  ads : List Ad
  comments : List Comment
  support : List SupportMessage
  nextArticleId : Nat
  nextAdId : Nat
  nextCommentId : Nat
  nextSupportId : Nat
deriving Repr, DecidableEq

/-- The freshly initialised store: empty tables, `SERIAL` sequences at 1. -/
def emptyDB : DB :=
  ⟨[], [], [], [], 1, 1, 1, 1⟩

/-- `ORDER BY date DESC`: newest first. -/
def dateDesc (a b : Article) : Prop := b.date ≤ a.date

instance : DecidableRel dateDesc := fun a b => Nat.decLe b.date a.date

/-- `ORDER BY date DESC` on comments. -/
def commentDateDesc (a b : Comment) : Prop := b.date ≤ a.date

instance : DecidableRel commentDateDesc := fun a b => Nat.decLe b.date a.date

/-- Request body of `POST /api/articles`. -/
structure ArticlePost where
  title : Option String
  subHeadline : Option String
  category : Option String
  author : Option String
  image : Option String
  excerpt : Option String
  content : Option String
  status : Option String
deriving Repr, DecidableEq

/-- Request body of `PUT /api/articles/:id`. -/
structure ArticlePut where
  title : Option String
  subHeadline : Option String
  category : Option String
  author : Option String
  image : Option String
  content : Option String
  isBreaking : Option Bool
deriving Repr, DecidableEq

/-- Request body of `POST /api/ads`. -/
structure AdPost where
  clientName : Option String
  email : Option String
  plan : Option String
  amount : Option String
  receiptImage : Option String
  adImage : Option String
  adContent : Option String
  adUrl : Option String
  adHeadline : Option String
  adContentFile : Option String
deriving Repr, DecidableEq

/-- Request body of `POST /api/comments`. -/
structure CommentPost where
  articleId : Option Nat
  author : Option String
  email : Option String
  content : Option String
deriving Repr, DecidableEq

/-- Request body of `POST /api/support`. -/
structure SupportPost where
  name : Option String
  email : Option String
  subject : Option String
  message : Option String
deriving Repr, DecidableEq

/-- Response of an article endpoint plus the store after the request:
HTTP status code and, when a row is returned, that row. -/
structure ArticleOut where
  code : Nat
  body : Option Article
  db : DB
deriving Repr, DecidableEq

/-- Response of an ad endpoint plus the store after the request. -/
structure AdOut where
  code : Nat
  body : Option Ad
  db : DB
deriving Repr, DecidableEq

/-- Response of the comment-creation endpoint plus the store after it. -/
structure CommentOut where
  code : Nat
  body : Option Comment
  db : DB
deriving Repr, DecidableEq

/-- Response of `POST /api/support`: on success the body is the constant
confirmation object `\x7b message: "Support message sent" \x7d`, modelled by
its `message` field. -/
structure SupportOut where
  code : Nat
  body : Option String
  db : DB
deriving Repr, DecidableEq

/-- The `CHECK (status IN ('pending', 'published', 'rejected'))` constraint
of the `articles` table, applied to a non-null inserted value. -/
def articleStatusOk (s : String) : Bool :=
  s == "pending" || s == "published" || s == "rejected"

/-- `GET /api/articles`:
`SELECT * FROM articles WHERE status = 'published' OR status IS NULL
ORDER BY date DESC`. -/
def getArticles (db : DB) : List Article :=
  List.insertionSort dateDesc
    (db.articles.filter fun a => a.status == some "published" || a.status == none)

/-- `GET /api/admin/pending-articles`. -/
def getPendingArticles (db : DB) : List Article :=
  List.insertionSort dateDesc
    (db.articles.filter fun a => a.status == some "pending")

/-- The article row built by the submit-article insert:
`status || 'pending'`, `author || 'Citizen Reporter'`, `subHeadline || ''`,
the remaining values passed through, and the column defaults for `date`
(creation time), `views` (0) and `is_breaking` (false). -/
def mkNewArticle (r : ArticlePost) (now : Nat) (db : DB) : Article :=
  { id := db.nextArticleId
    title := r.title.getD ""
    category := r.category.getD ""
    author := some (jsOr r.author "Citizen Reporter")
    date := now
    image := r.image
    excerpt := r.excerpt
    content := r.content
    views := 0
    status := some (jsOr r.status "pending")
    isBreaking := some false
    subHeadline := some (jsOr r.subHeadline "") }

/-- `POST /api/articles`: rejects falsy `title`/`category`/`content` with
400, then inserts `mkNewArticle`; an inserted status outside the `CHECK`
enumeration fails the statement, which the `asyncHandler` route surfaces
as a 500. -/
def postArticle (r : ArticlePost) (now : Nat) (db : DB) : ArticleOut :=
  if falsyStr r.title || falsyStr r.category || falsyStr r.content then
    ⟨400, none, db⟩
  else if articleStatusOk (jsOr r.status "pending") then
    ⟨201, some (mkNewArticle r now db),
      { db with articles := db.articles ++ [mkNewArticle r now db],
                nextArticleId := db.nextArticleId + 1 }⟩
  else
    ⟨500, none, db⟩

/-- The row update performed by the approve-article statement:
`SET status = 'published', is_breaking = $1, date = NOW()`. -/
def approveArticleUpd (isBreaking : Option Bool) (now : Nat) (a : Article) :
    Article :=
  { a with status := some "published",
           isBreaking := some (truthyBool isBreaking),
           date := now }

/-- `PATCH /api/admin/articles/:id/approve`: updates every row matching the
id, answers 404 when no row matched, otherwise 200 with the updated row. -/
def approveArticle (id : Nat) (isBreaking : Option Bool) (now : Nat)
    (db : DB) : ArticleOut :=
  match (db.articles.filter fun a => a.id == id).map
      (approveArticleUpd isBreaking now) with
  | [] => ⟨404, none, db⟩
  | r :: _ =>
    ⟨200, some r,
      { db with articles := db.articles.map fun a =>
          if a.id == id then approveArticleUpd isBreaking now a else a }⟩

/-- The row update performed by the update-article statement: overwrites
`title`, `sub_headline`, `category`, `author`, `image`, `content`,
`is_breaking` with the request-body values (absent fields become NULL). -/
def putArticleUpd (r : ArticlePut) (t c : String) (a : Article) : Article :=
  { a with title := t,
           subHeadline := r.subHeadline,
           category := c,
           author := r.author,
           image := r.image,
           content := r.content,
           isBreaking := r.isBreaking }

/-- `PUT /api/articles/:id`: 404 when no row matches the id; otherwise the
update statement runs, and writing NULL into the `NOT NULL` columns
`title` or `category` fails it (500 via the global error handler). -/
def putArticle (id : Nat) (r : ArticlePut) (db : DB) : ArticleOut :=
  match db.articles.filter fun a => a.id == id with
  | [] => ⟨404, none, db⟩
  | a0 :: _ =>
    match r.title, r.category with
    | some t, some c =>
      ⟨200, some (putArticleUpd r t c a0),
        { db with articles := db.articles.map fun a =>
            if a.id == id then putArticleUpd r t c a else a }⟩
    | _, _ => ⟨500, none, db⟩

/-- Response of a delete endpoint plus the store after the request. -/
structure DeleteOut where
  code : Nat
  db : DB
deriving Repr, DecidableEq

/-- `DELETE /api/articles/:id`: deletes matching article rows; the
`ON DELETE CASCADE` clause removes the comments referencing a deleted row.
Always answers 200 with a confirmation message. -/
def deleteArticle (id : Nat) (db : DB) : DeleteOut :=
  if db.articles.any fun a => a.id == id then
    ⟨200,
      { db with articles := db.articles.filter fun a => !(a.id == id),
                comments := db.comments.filter fun c =>
                  !(c.articleId == some id) }⟩
  else
    ⟨200, db⟩

/-- The ad row built by the submit-ad insert: the request values passed
through and the column defaults for `status` (`'pending'`) and
`date_submitted` (creation time). -/
def mkNewAd (r : AdPost) (now : Nat) (db : DB) : Ad :=
  { id := db.nextAdId
    clientName := r.clientName.getD ""
    email := r.email.getD ""
    plan := r.plan.getD ""
    amount := r.amount
    status := some "pending"
    dateSubmitted := now
    receiptImage := r.receiptImage
    adImage := r.adImage
    adContent := r.adContent
    adUrl := r.adUrl
    adHeadline := r.adHeadline
    adContentFile := r.adContentFile }

/-- `POST /api/ads`: rejects falsy `clientName`/`email`/`plan` with 400,
otherwise inserts `mkNewAd` (the `status` column defaults to
`'pending'`). -/
def postAd (r : AdPost) (now : Nat) (db : DB) : AdOut :=
  if falsyStr r.clientName || falsyStr r.email || falsyStr r.plan then
    ⟨400, none, db⟩
  else
    ⟨201, some (mkNewAd r now db),
      { db with ads := db.ads ++ [mkNewAd r now db],
                nextAdId := db.nextAdId + 1 }⟩

/-- The row update performed by the approve-ad statement:
`SET status = 'active'`. -/
def approveAdUpd (d : Ad) : Ad :=
  { d with status := some "active" }

/-- `PATCH /api/admin/ads/:id/approve`: updates every row matching the id,
404 when no row matched, otherwise 200 with the updated row. -/
def approveAd (id : Nat) (db : DB) : AdOut :=
  match (db.ads.filter fun d => d.id == id).map approveAdUpd with
  | [] => ⟨404, none, db⟩
  | r :: _ =>
    ⟨200, some r,
      { db with ads := db.ads.map fun d =>
          if d.id == id then approveAdUpd d else d }⟩

/-- `DELETE /api/ads/:id`: deletes matching rows, always answers 200. -/
def deleteAd (id : Nat) (db : DB) : DeleteOut :=
  ⟨200, { db with ads := db.ads.filter fun d => !(d.id == id) }⟩

/-- `POST /api/comments`: the insert fails (caught as 400) when a
`NOT NULL` column (`author`, `email`, `content`) receives NULL or when a
non-null `article_id` references no existing article row (foreign key);
a NULL `article_id` is accepted by the foreign-key constraint. -/
def postComment (r : CommentPost) (now : Nat) (db : DB) : CommentOut :=
  match r.author, r.email, r.content with
  | some a, some e, some c =>
    if (match r.articleId with
        | some aid => db.articles.any fun art => art.id == aid
        | none => true) then
      let cm : Comment :=
        { id := db.nextCommentId
          articleId := r.articleId
          author := a
          email := e
          content := c
          date := now }
      ⟨201, some cm,
        { db with comments := db.comments ++ [cm],
                  nextCommentId := db.nextCommentId + 1 }⟩
    else
      ⟨400, none, db⟩
  | _, _, _ => ⟨400, none, db⟩

/-- `GET /api/articles/:id/comments`:
`SELECT * FROM comments WHERE article_id = $1 ORDER BY date DESC`
(the snake_case → camelCase mapping is the identity in this model). -/
def getComments (id : Nat) (db : DB) : List Comment :=
  List.insertionSort commentDateDesc
    (db.comments.filter fun c => c.articleId == some id)

/-- `POST /api/support`: the insert fails (caught as 400) when a `NOT NULL`
column (`name`, `email`, `message`) receives NULL; on success the response
body is the constant `\x7b message: "Support message sent" \x7d`, not the
inserted row. -/
def postSupport (r : SupportPost) (now : Nat) (db : DB) : SupportOut :=
  match r.name, r.email, r.message with
  | some n, some e, some m =>
    let s : SupportMessage :=
      { id := db.nextSupportId
        name := n
        email := e
        subject := r.subject
        message := m
        date := now
        status := "unread" }
    ⟨201, some "Support message sent",
      { db with support := db.support ++ [s],
                nextSupportId := db.nextSupportId + 1 }⟩
  | _, _, _ => ⟨400, none, db⟩

/-- One state-changing API request: the store transitions from `db` to the
store left behind by the corresponding handler. -/
inductive Step : DB → DB → Prop where
  | postArticle (db : DB) (r : ArticlePost) (now : Nat) :
      Step db (postArticle r now db).db
  | approveArticle (db : DB) (id : Nat) (b : Option Bool) (now : Nat) :
      Step db (approveArticle id b now db).db
  | putArticle (db : DB) (id : Nat) (r : ArticlePut) :
      Step db (putArticle id r db).db
  | deleteArticle (db : DB) (id : Nat) :
      Step db (deleteArticle id db).db
  | postAd (db : DB) (r : AdPost) (now : Nat) :
      Step db (postAd r now db).db
  | approveAd (db : DB) (id : Nat) :
      Step db (approveAd id db).db
  | deleteAd (db : DB) (id : Nat) :
      Step db (deleteAd id db).db
  | postComment (db : DB) (r : CommentPost) (now : Nat) :
      Step db (postComment r now db).db
  | postSupport (db : DB) (r : SupportPost) (now : Nat) :
      Step db (postSupport r now db).db

/-- Store states reachable from the freshly initialised store through the
API (read-only endpoints do not change the state). -/
inductive Reachable : DB → Prop where
  | init : Reachable emptyDB
  | step {db db' : DB} : Reachable db → Step db db' → Reachable db'

/-- Referential integrity of the `comments.article_id` foreign key: every
comment that references an article id references an existing article. -/
def CommentsHaveParents (db : DB) : Prop :=
  ∀ c ∈ db.comments, ∀ a : Nat, c.articleId = some a →
    ∃ art ∈ db.articles, art.id = a

instance (db : DB) : Decidable (CommentsHaveParents db) := by
  unfold CommentsHaveParents
  infer_instance

/-- Ids already handed out are below the `SERIAL` sequence values. -/
def IdsBounded (db : DB) : Prop :=
  (∀ a ∈ db.articles, a.id < db.nextArticleId) ∧
  (∀ d ∈ db.ads, d.id < db.nextAdId)

instance : IsTotal Article dateDesc :=
  ⟨fun a b => Nat.le_total b.date a.date⟩

instance : IsTrans Article dateDesc :=
  ⟨fun _ _ _ h1 h2 => Nat.le_trans h2 h1⟩

lemma mem_getArticles {db : DB} {a : Article} :
    a ∈ getArticles db ↔
      a ∈ db.articles ∧ (a.status = some "published" ∨ a.status = none) := by
  unfold getArticles
  rw [List.mem_insertionSort, List.mem_filter]
  simp only [Bool.or_eq_true, beq_iff_eq]

lemma article_filter_ne_nil {l : List Article} {a : Article} {id : Nat}
    (h : a ∈ l) (hid : a.id = id) : l.filter (fun x => x.id == id) ≠ [] := by
  intro hnil
  rw [List.filter_eq_nil_iff] at hnil
  exact hnil a h (by simp [hid])

lemma article_filter_eq_nil {l : List Article} {id : Nat}
    (h : ∀ a ∈ l, a.id ≠ id) : l.filter (fun x => x.id == id) = [] := by
  rw [List.filter_eq_nil_iff]
  intro a ha
  simp [h a ha]

lemma approveArticle_of_filter_nil {db : DB} {id : Nat}
    {b : Option Bool} {now : Nat}
    (h : db.articles.filter (fun a => a.id == id) = []) :
    approveArticle id b now db = ⟨404, none, db⟩ := by
  unfold approveArticle
  rw [h]
  rfl

lemma approveArticle_of_filter_cons {db : DB} {id : Nat}
    {b : Option Bool} {now : Nat} {a0 : Article} {rest : List Article}
    (h : db.articles.filter (fun a => a.id == id) = a0 :: rest) :
    approveArticle id b now db =
      ⟨200, some (approveArticleUpd b now a0),
        { db with articles := db.articles.map fun a =>
            if a.id == id then approveArticleUpd b now a else a }⟩ := by
  unfold approveArticle
  rw [h]
  rfl

/-- The article listed by the published-articles endpoint, amended model:
an article with NULL status used for the counterexample. -/
def nullStatusArticle : Article :=
  ⟨1, "Old title", "News", some "A", 5, none, none, some "Body", 0, none,
    some false, none⟩

/-- A schema-valid store holding one article whose `status` is NULL (the
`CHECK` constraint admits NULL, and the listing query mentions
`status IS NULL` explicitly). -/
def nullStatusDB : DB :=
  { emptyDB with articles := [nullStatusArticle], nextArticleId := 2 }

/-- C1 counterexample: in a schema-valid store holding an article with no
status, `GET /api/articles` returns that article, so the claim that no
Article with no status value appears in the result is false. -/
theorem published_listing_null_status_cex :
    nullStatusArticle.status = none ∧
    nullStatusArticle ∈ getArticles nullStatusDB := by
  constructor
  · rfl
  · decide

/-- C1 (amended): the public listing returns exactly the articles whose
status is `'published'` **or NULL** (`WHERE status = 'published' OR status
IS NULL`), ordered newest first by date. -/
theorem published_listing_spec (db : DB) :
    (getArticles db).Perm
      (db.articles.filter fun a =>
        a.status == some "published" || a.status == none) ∧
    List.Sorted dateDesc (getArticles db) ∧
    ∀ a, a ∈ getArticles db ↔
      a ∈ db.articles ∧ (a.status = some "published" ∨ a.status = none) := by
  refine ⟨List.perm_insertionSort dateDesc _, ?_, fun a => mem_getArticles⟩
  exact List.sorted_insertionSort dateDesc _

/-- C1 witness: the amended statement evaluated on a concrete store. -/
theorem published_listing_spec_witness :
    ∀ a, a ∈ getArticles nullStatusDB ↔
      a ∈ nullStatusDB.articles ∧
        (a.status = some "published" ∨ a.status = none) :=
  (published_listing_spec nullStatusDB).2.2

/-- C2: approving an existing article answers 200 with the updated row —
status `'published'`, `is_breaking` set from the request, date refreshed to
the approval time — and that row appears in the published listing
afterwards; approving a nonexistent id answers 404 and leaves the store
unchanged. -/
theorem approve_article_spec (db : DB) (id : Nat) (b : Option Bool)
    (now : Nat) :
    ((∃ a ∈ db.articles, a.id = id) →
      (approveArticle id b now db).code = 200 ∧
      (∃ a0 ∈ db.articles, a0.id = id ∧
        (approveArticle id b now db).body
          = some (approveArticleUpd b now a0)) ∧
      (∀ u, (approveArticle id b now db).body = some u →
        u.status = some "published" ∧ u.isBreaking = some (truthyBool b) ∧
        u.date = now ∧ u ∈ getArticles (approveArticle id b now db).db)) ∧
    ((∀ a ∈ db.articles, a.id ≠ id) →
      approveArticle id b now db = ⟨404, none, db⟩) := by
  constructor
  · rintro ⟨a, ha, haid⟩
    cases hf : db.articles.filter (fun x => x.id == id) with
    | nil => exact absurd hf (article_filter_ne_nil ha haid)
    | cons a0 rest =>
      have hmf : a0 ∈ db.articles.filter (fun x => x.id == id) := by
        rw [hf]
        exact List.mem_cons_self a0 rest
      have ha0 := List.mem_filter.mp hmf
      have ha0id : a0.id = id := by simpa using ha0.2
      rw [approveArticle_of_filter_cons hf]
      refine ⟨rfl, ⟨a0, ha0.1, ha0id, rfl⟩, ?_⟩
      rintro u hu
      cases hu
      refine ⟨rfl, rfl, rfl, ?_⟩
      rw [mem_getArticles]
      exact ⟨List.mem_map.mpr ⟨a0, ha0.1, by simp [ha0id]⟩, Or.inl rfl⟩
  · intro hnone
    exact approveArticle_of_filter_nil (article_filter_eq_nil hnone)

/-- A store with one pending article, id 1, used by several witnesses. -/
def appArticle : Article :=
  ⟨1, "T", "News", some "R", 3, none, none, some "C", 0, some "pending",
    some false, some ""⟩

/-- A concrete store holding only `appArticle`. -/
def appDB : DB :=
  { emptyDB with articles := [appArticle], nextArticleId := 2 }

/-- C2 witness: both branches of the approve-article contract at a
concrete store. -/
theorem approve_article_spec_witness :
    (approveArticle 1 (some true) 9 appDB).code = 200 ∧
    approveArticle 7 none 9 appDB = ⟨404, none, appDB⟩ :=
  ⟨((approve_article_spec appDB 1 (some true) 9).1
      ⟨appArticle, by decide, rfl⟩).1,
   (approve_article_spec appDB 7 none 9).2 (by decide)⟩

lemma jsOr_of_falsy {v : Option String} {d : String}
    (h : falsyStr v = true) : jsOr v d = d := by
  cases v with
  | none => rfl
  | some s =>
    have hs : (s == "") = true := h
    simp [jsOr, hs]

lemma jsOr_of_some {s d : String} (h : s ≠ "") : jsOr (some s) d = s := by
  simp [jsOr, h]

lemma falsyStr_false_iff {v : Option String} :
    falsyStr v = false ↔ ∃ s, v = some s ∧ s ≠ "" := by
  cases v with
  | none => simp [falsyStr]
  | some s => simp [falsyStr]

lemma postArticle_400 {r : ArticlePost} {now : Nat} {db : DB}
    (h : (falsyStr r.title || falsyStr r.category || falsyStr r.content)
          = true) :
    postArticle r now db = ⟨400, none, db⟩ := by
  unfold postArticle
  rw [if_pos h]

lemma postArticle_201 {r : ArticlePost} {now : Nat} {db : DB}
    (h : (falsyStr r.title || falsyStr r.category || falsyStr r.content)
          = false)
    (hst : articleStatusOk (jsOr r.status "pending") = true) :
    postArticle r now db =
      ⟨201, some (mkNewArticle r now db),
        { db with articles := db.articles ++ [mkNewArticle r now db],
                  nextArticleId := db.nextArticleId + 1 }⟩ := by
  unfold postArticle
  rw [if_neg (by simp [h]), if_pos hst]

lemma postArticle_500 {r : ArticlePost} {now : Nat} {db : DB}
    (h : (falsyStr r.title || falsyStr r.category || falsyStr r.content)
          = false)
    (hst : articleStatusOk (jsOr r.status "pending") = false) :
    postArticle r now db = ⟨500, none, db⟩ := by
  unfold postArticle
  rw [if_neg (by simp [h]), if_neg (by simp [hst])]

lemma postAd_400 {r : AdPost} {now : Nat} {db : DB}
    (h : (falsyStr r.clientName || falsyStr r.email || falsyStr r.plan)
          = true) :
    postAd r now db = ⟨400, none, db⟩ := by
  unfold postAd
  rw [if_pos h]

lemma postAd_201 {r : AdPost} {now : Nat} {db : DB}
    (h : (falsyStr r.clientName || falsyStr r.email || falsyStr r.plan)
          = false) :
    postAd r now db =
      ⟨201, some (mkNewAd r now db),
        { db with ads := db.ads ++ [mkNewAd r now db],
                  nextAdId := db.nextAdId + 1 }⟩ := by
  unfold postAd
  rw [if_neg (by simp [h])]

/-- C4 (amended): with non-falsy `title`, `category`, `content`, the submit
operation answers 201 with the created Article; the stored status is
`'pending'` when the caller's status is missing or empty (`status ||
'pending'`), the supplied status when it is one of the three allowed
values, and a supplied status outside the `CHECK` enumeration fails the
insert with a 500 and creates nothing; a falsy required field answers 400
and creates nothing. -/
theorem submit_article_status_spec (db : DB) (r : ArticlePost) (now : Nat) :
    ((falsyStr r.title = true ∨ falsyStr r.category = true ∨
      falsyStr r.content = true) →
       postArticle r now db = ⟨400, none, db⟩) ∧
    (falsyStr r.title = false → falsyStr r.category = false →
     falsyStr r.content = false →
       (falsyStr r.status = true →
          postArticle r now db =
            ⟨201, some (mkNewArticle r now db),
              { db with articles := db.articles ++ [mkNewArticle r now db],
                        nextArticleId := db.nextArticleId + 1 }⟩ ∧
          (mkNewArticle r now db).status = some "pending") ∧
       (∀ s, r.status = some s → s ≠ "" → articleStatusOk s = true →
          postArticle r now db =
            ⟨201, some (mkNewArticle r now db),
              { db with articles := db.articles ++ [mkNewArticle r now db],
                        nextArticleId := db.nextArticleId + 1 }⟩ ∧
          (mkNewArticle r now db).status = some s) ∧
       (∀ s, r.status = some s → s ≠ "" → articleStatusOk s = false →
          postArticle r now db = ⟨500, none, db⟩)) := by
  constructor
  · intro h
    apply postArticle_400
    rcases h with h | h | h <;> simp [h]
  · intro h1 h2 h3
    refine ⟨?_, ?_, ?_⟩
    · intro hs
      have hj := jsOr_of_falsy (d := "pending") hs
      refine ⟨postArticle_201 (by simp [h1, h2, h3]) (by rw [hj]; rfl), ?_⟩
      simp [mkNewArticle, hj]
    · intro s hsome hne hok
      have hj : jsOr r.status "pending" = s := by
        rw [hsome]
        exact jsOr_of_some hne
      refine ⟨postArticle_201 (by simp [h1, h2, h3]) (by rw [hj]; exact hok),
        ?_⟩
      simp [mkNewArticle, hj]
    · intro s hsome hne hok
      have hj : jsOr r.status "pending" = s := by
        rw [hsome]
        exact jsOr_of_some hne
      exact postArticle_500 (by simp [h1, h2, h3]) (by rw [hj]; exact hok)

/-- A fully valid submission with no explicit status. -/
def validPost : ArticlePost :=
  ⟨some "T", none, some "News", none, none, none, some "C", none⟩

/-- A valid submission whose explicit status is the empty string. -/
def emptyStatusPost : ArticlePost :=
  ⟨some "T", none, some "News", none, none, none, some "C", some ""⟩

/-- A valid submission with a status outside the `CHECK` enumeration. -/
def bananaPost : ArticlePost :=
  ⟨some "T", none, some "News", none, none, none, some "C", some "banana"⟩

/-- C4 counterexample: the caller supplies a status (the empty string), yet
the stored status of the created Article is `'pending'`, not the supplied
value — `status || 'pending'` discards falsy statuses. -/
theorem submit_article_empty_status_cex :
    emptyStatusPost.status = some "" ∧
    (postArticle emptyStatusPost 0 emptyDB).code = 201 ∧
    (postArticle emptyStatusPost 0 emptyDB).body.map Article.status
      = some (some "pending") := by
  refine ⟨rfl, ?_, ?_⟩ <;> decide

/-- C4 witness: the amended contract at concrete requests — default
status, and the 500 on a status outside the enumeration. -/
theorem submit_article_status_spec_witness :
    (postArticle validPost 2 emptyDB =
      ⟨201, some (mkNewArticle validPost 2 emptyDB),
        { emptyDB with
            articles := emptyDB.articles ++ [mkNewArticle validPost 2 emptyDB],
            nextArticleId := emptyDB.nextArticleId + 1 }⟩ ∧
      (mkNewArticle validPost 2 emptyDB).status = some "pending") ∧
    postArticle bananaPost 2 emptyDB = ⟨500, none, emptyDB⟩ :=
  ⟨((submit_article_status_spec emptyDB validPost 2).2 rfl rfl rfl).1 rfl,
   ((submit_article_status_spec emptyDB bananaPost 2).2 rfl rfl rfl).2.2
     "banana" rfl (by decide) rfl⟩

/-- C8: a submit-ad request missing `plan` (or `clientName`, or `email`)
answers 400 and leaves the store unchanged — no Ad row is created. -/
theorem submit_ad_missing_field_spec (db : DB) (r : AdPost) (now : Nat)
    (h : r.plan = none ∨ r.clientName = none ∨ r.email = none) :
    postAd r now db = ⟨400, none, db⟩ := by
  apply postAd_400
  rcases h with h | h | h <;> simp [h, falsyStr]

/-- A submit-ad request without a `plan` field. -/
def missingPlanAd : AdPost :=
  ⟨some "Acme", some "ads@acme.example", none, none, none, none, none, none,
    none, none⟩

/-- C8 witness: the missing-`plan` rejection at a concrete store. -/
theorem submit_ad_missing_field_spec_witness :
    postAd missingPlanAd 7 appDB = ⟨400, none, appDB⟩ :=
  submit_ad_missing_field_spec appDB missingPlanAd 7 (Or.inl rfl)

/-- C10: the required-field checks use JavaScript truthiness, so an empty
string counts as missing: an empty `title`/`category`/`content` on submit
article, or an empty `clientName`/`email`/`plan` on submit ad, answers 400
and creates no record. -/
theorem empty_string_validation_spec (db : DB) (now : Nat)
    (ra : ArticlePost) (rd : AdPost) :
    ((ra.title = some "" ∨ ra.category = some "" ∨ ra.content = some "") →
      postArticle ra now db = ⟨400, none, db⟩) ∧
    ((rd.clientName = some "" ∨ rd.email = some "" ∨ rd.plan = some "") →
      postAd rd now db = ⟨400, none, db⟩) := by
  constructor
  · intro h
    apply postArticle_400
    rcases h with h | h | h <;> simp [h, falsyStr]
  · intro h
    apply postAd_400
    rcases h with h | h | h <;> simp [h, falsyStr]

/-- A submit-article request whose title is the empty string. -/
def emptyTitlePost : ArticlePost :=
  ⟨some "", none, some "News", none, none, none, some "C", none⟩

/-- A submit-ad request whose email is the empty string. -/
def emptyEmailAd : AdPost :=
  ⟨some "Acme", some "", some "basic", none, none, none, none, none, none,
    none⟩

/-- C10 witness: empty-string fields rejected at a concrete store. -/
theorem empty_string_validation_spec_witness :
    postArticle emptyTitlePost 3 appDB = ⟨400, none, appDB⟩ ∧
    postAd emptyEmailAd 3 appDB = ⟨400, none, appDB⟩ :=
  ⟨(empty_string_validation_spec appDB 3 emptyTitlePost emptyEmailAd).1
      (Or.inl rfl),
   (empty_string_validation_spec appDB 3 emptyTitlePost emptyEmailAd).2
      (Or.inr (Or.inl rfl))⟩

lemma putArticle_of_filter_nil {db : DB} {id : Nat} {r : ArticlePut}
    (h : db.articles.filter (fun a => a.id == id) = []) :
    putArticle id r db = ⟨404, none, db⟩ := by
  unfold putArticle
  rw [h]

lemma putArticle_200 {db : DB} {id : Nat} {r : ArticlePut}
    {a0 : Article} {rest : List Article} {t c : String}
    (h : db.articles.filter (fun a => a.id == id) = a0 :: rest)
    (ht : r.title = some t) (hc : r.category = some c) :
    putArticle id r db =
      ⟨200, some (putArticleUpd r t c a0),
        { db with articles := db.articles.map fun a =>
            if a.id == id then putArticleUpd r t c a else a }⟩ := by
  unfold putArticle
  rw [h, ht, hc]

lemma putArticle_500 {db : DB} {id : Nat} {r : ArticlePut}
    {a0 : Article} {rest : List Article}
    (h : db.articles.filter (fun a => a.id == id) = a0 :: rest)
    (hnull : r.title = none ∨ r.category = none) :
    putArticle id r db = ⟨500, none, db⟩ := by
  unfold putArticle
  rw [h]
  rcases hnull with hn | hn
  · rw [hn]
  · rw [hn]
    cases r.title <;> rfl

/-- C5 (amended): for an existing Article id and a request body carrying
`title` and `category`, the update operation overwrites exactly the fields
`title`, `sub_headline`, `category`, `author`, `image`, `content`,
`is_breaking` with the body values (absent optional fields become NULL;
`excerpt`, `status`, `views`, `date` are untouched) and answers 200 with
the updated record; a body missing `title` or `category` makes the
statement violate `NOT NULL` and answers 500 with the store unchanged; a
nonexistent id answers 404 with the store unchanged. -/
theorem update_article_spec (db : DB) (id : Nat) (r : ArticlePut) :
    ((∀ a ∈ db.articles, a.id ≠ id) →
       putArticle id r db = ⟨404, none, db⟩) ∧
    ((∃ a ∈ db.articles, a.id = id) →
       (∀ t c, r.title = some t → r.category = some c →
          (putArticle id r db).code = 200 ∧
          (∃ a0 ∈ db.articles, a0.id = id ∧
            (putArticle id r db).body = some (putArticleUpd r t c a0)) ∧
          (putArticle id r db).db.articles
            = db.articles.map fun a =>
                if a.id == id then putArticleUpd r t c a else a) ∧
       ((r.title = none ∨ r.category = none) →
          putArticle id r db = ⟨500, none, db⟩)) := by
  constructor
  · intro hnone
    exact putArticle_of_filter_nil (article_filter_eq_nil hnone)
  · rintro ⟨a, ha, haid⟩
    cases hf : db.articles.filter (fun x => x.id == id) with
    | nil => exact absurd hf (article_filter_ne_nil ha haid)
    | cons a0 rest =>
      have hmf : a0 ∈ db.articles.filter (fun x => x.id == id) := by
        rw [hf]
        exact List.mem_cons_self a0 rest
      have ha0 := List.mem_filter.mp hmf
      have ha0id : a0.id = id := by simpa using ha0.2
      constructor
      · intro t c ht hc
        rw [putArticle_200 hf ht hc]
        exact ⟨rfl, ⟨a0, ha0.1, ha0id, rfl⟩, rfl⟩
      · intro hnull
        exact putArticle_500 hf hnull

/-- A full-field update request body. -/
def updFullPut : ArticlePut :=
  ⟨some "T2", some "sub", some "Sports", some "Ed", none, some "C2",
    some true⟩

/-- An update request body without a `title`. -/
def missingTitlePut : ArticlePut :=
  ⟨none, none, some "Sports", none, none, none, none⟩

/-- C5 counterexample: article id 1 exists, yet the update with a body
missing `title` does not overwrite and return the record — it answers 500
with no body and leaves the store unchanged (NOT NULL violation). -/
theorem update_article_missing_title_cex :
    appArticle ∈ appDB.articles ∧ appArticle.id = 1 ∧
    putArticle 1 missingTitlePut appDB = ⟨500, none, appDB⟩ := by
  refine ⟨by decide, rfl, by decide⟩

/-- C5 witness: the three branches of the amended update contract at a
concrete store. -/
theorem update_article_spec_witness :
    (putArticle 1 updFullPut appDB).code = 200 ∧
    putArticle 1 missingTitlePut appDB = ⟨500, none, appDB⟩ ∧
    putArticle 9 updFullPut appDB = ⟨404, none, appDB⟩ :=
  ⟨(((update_article_spec appDB 1 updFullPut).2
      ⟨appArticle, by decide, rfl⟩).1 "T2" "Sports" rfl rfl).1,
   ((update_article_spec appDB 1 missingTitlePut).2
      ⟨appArticle, by decide, rfl⟩).2 (Or.inl rfl),
   (update_article_spec appDB 9 updFullPut).1 (by decide)⟩

lemma ad_filter_ne_nil {l : List Ad} {d : Ad} {id : Nat}
    (h : d ∈ l) (hid : d.id = id) : l.filter (fun x => x.id == id) ≠ [] := by
  intro hnil
  rw [List.filter_eq_nil_iff] at hnil
  exact hnil d h (by simp [hid])

lemma approveAd_of_filter_cons {db : DB} {id : Nat} {d0 : Ad}
    {rest : List Ad}
    (h : db.ads.filter (fun d => d.id == id) = d0 :: rest) :
    approveAd id db =
      ⟨200, some (approveAdUpd d0),
        { db with ads := db.ads.map fun d =>
            if d.id == id then approveAdUpd d else d }⟩ := by
  unfold approveAd
  rw [h]
  rfl

lemma approveAdUpd_id (d : Ad) : (approveAdUpd d).id = d.id := rfl

lemma approveAdUpd_idem (d : Ad) :
    approveAdUpd (approveAdUpd d) = approveAdUpd d := rfl

lemma filter_map_approveAd (l : List Ad) (id : Nat) :
    ((l.map fun d => if d.id == id then approveAdUpd d else d).filter
        fun d => d.id == id)
      = (l.filter fun d => d.id == id).map approveAdUpd := by
  induction l with
  | nil => rfl
  | cons d l ih =>
    by_cases h : d.id = id
    · simp [List.map_cons, List.filter_cons, h, approveAdUpd_id] at ih ⊢
      exact ih
    · simp [List.map_cons, List.filter_cons, h, approveAdUpd_id] at ih ⊢
      exact ih

lemma map_approveAd_idem (l : List Ad) (id : Nat) :
    ((l.map fun d => if d.id == id then approveAdUpd d else d).map
        fun d => if d.id == id then approveAdUpd d else d)
      = l.map fun d => if d.id == id then approveAdUpd d else d := by
  rw [List.map_map]
  apply List.map_congr_left
  intro d _
  show (if ((if (d.id == id) = true then approveAdUpd d else d).id == id) = true
      then approveAdUpd (if (d.id == id) = true then approveAdUpd d else d)
      else if (d.id == id) = true then approveAdUpd d else d)
    = if (d.id == id) = true then approveAdUpd d else d
  by_cases h : (d.id == id) = true
  · rw [if_pos h, if_pos (show ((approveAdUpd d).id == id) = true from h)]
    exact approveAdUpd_idem d
  · rw [if_neg h, if_neg h]

/-- C9: approving an existing Ad twice in a row yields the same response
and the same store as approving it once; the second approval also answers
200 and the returned Ad has status `'active'`. -/
theorem approve_ad_idempotent (db : DB) (id : Nat)
    (h : ∃ d ∈ db.ads, d.id = id) :
    approveAd id (approveAd id db).db = approveAd id db ∧
    (approveAd id db).code = 200 ∧
    (∀ d, (approveAd id db).body = some d → d.status = some "active") := by
  obtain ⟨d, hd, hdid⟩ := h
  cases hf : db.ads.filter (fun x => x.id == id) with
  | nil => exact absurd hf (ad_filter_ne_nil hd hdid)
  | cons d0 rest =>
    rw [approveAd_of_filter_cons hf]
    have hf2 : (({ db with ads := db.ads.map fun x =>
          if x.id == id then approveAdUpd x else x } : DB)).ads.filter
            (fun x => x.id == id)
          = approveAdUpd d0 :: rest.map approveAdUpd := by
      show ((db.ads.map fun x =>
          if x.id == id then approveAdUpd x else x).filter
            fun x => x.id == id) = _
      rw [filter_map_approveAd, hf]
      rfl
    rw [approveAd_of_filter_cons hf2]
    refine ⟨?_, rfl, ?_⟩
    · rw [show (({ db with ads := db.ads.map fun x =>
          if x.id == id then approveAdUpd x else x } : DB)).ads.map
            (fun x => if x.id == id then approveAdUpd x else x)
          = db.ads.map fun x => if x.id == id then approveAdUpd x else x
        from map_approveAd_idem db.ads id]
      rfl
    · intro x hx
      cases hx
      rfl

/-- A pending ad with id 1. -/
def appAd : Ad :=
  ⟨1, "Acme", "ads@acme.example", "basic", none, some "pending", 2, none,
    none, none, none, none, none⟩

/-- A concrete store holding only `appAd`. -/
def adDB : DB :=
  { emptyDB with ads := [appAd], nextAdId := 2 }

/-- C9 witness: approving ad 1 twice in a concrete store equals approving
it once, and the single approval answers 200. -/
theorem approve_ad_idempotent_witness :
    approveAd 1 (approveAd 1 adDB).db = approveAd 1 adDB ∧
    (approveAd 1 adDB).code = 200 :=
  ⟨(approve_ad_idempotent adDB 1 ⟨appAd, by decide, rfl⟩).1,
   (approve_ad_idempotent adDB 1 ⟨appAd, by decide, rfl⟩).2.1⟩

/-- C6 (amended): every successful create answers 201; for submit article,
submit ad and post comment the body is the created record (the row
appended to the store), while submit support answers 201 with the constant
confirmation message — not the created record. -/
theorem create_response_spec (db : DB) (now : Nat) :
    (∀ r : ArticlePost, (postArticle r now db).code = 201 →
       ∃ a, (postArticle r now db).body = some a ∧
         (postArticle r now db).db.articles = db.articles ++ [a]) ∧
    (∀ r : AdPost, (postAd r now db).code = 201 →
       ∃ d, (postAd r now db).body = some d ∧
         (postAd r now db).db.ads = db.ads ++ [d]) ∧
    (∀ r : CommentPost, (postComment r now db).code = 201 →
       ∃ c, (postComment r now db).body = some c ∧
         (postComment r now db).db.comments = db.comments ++ [c]) ∧
    (∀ r : SupportPost, (postSupport r now db).code = 201 →
       (postSupport r now db).body = some "Support message sent" ∧
       ∃ m, (postSupport r now db).db.support = db.support ++ [m]) := by
  refine ⟨?_, ?_, ?_, ?_⟩
  · intro r h201
    cases hb : (falsyStr r.title || falsyStr r.category || falsyStr r.content)
    case true =>
      rw [postArticle_400 hb] at h201
      simp at h201
    case false =>
      cases hst : articleStatusOk (jsOr r.status "pending")
      case true =>
        rw [postArticle_201 hb hst]
        exact ⟨mkNewArticle r now db, rfl, rfl⟩
      case false =>
        rw [postArticle_500 hb hst] at h201
        simp at h201
  · intro r h201
    cases hb : (falsyStr r.clientName || falsyStr r.email || falsyStr r.plan)
    case true =>
      rw [postAd_400 hb] at h201
      simp at h201
    case false =>
      rw [postAd_201 hb]
      exact ⟨mkNewAd r now db, rfl, rfl⟩
  · intro r h201
    unfold postComment at h201 ⊢
    cases ha : r.author with
    | none => simp [ha] at h201
    | some a =>
      cases he : r.email with
      | none => simp [ha, he] at h201
      | some e =>
        cases hc : r.content with
        | none => simp [ha, he, hc] at h201
        | some c =>
          rw [ha, he, hc] at h201
          cases hfk : (match r.articleId with
              | some aid => db.articles.any fun art => art.id == aid
              | none => true)
          case false => simp [hfk] at h201
          case true => exact ⟨_, rfl, rfl⟩
  · intro r h201
    unfold postSupport at h201 ⊢
    cases hn : r.name with
    | none => simp [hn] at h201
    | some n =>
      cases he : r.email with
      | none => simp [hn, he] at h201
      | some e =>
        cases hm : r.message with
        | none => simp [hn, he, hm] at h201
        | some m => exact ⟨rfl, _, rfl⟩

/-- A valid support message from Alice. -/
def supportA : SupportPost :=
  ⟨some "Alice", some "alice@example.com", none, some "Hello"⟩

/-- A valid support message from Bob. -/
def supportB : SupportPost :=
  ⟨some "Bob", some "bob@example.com", none, some "World"⟩

/-- C6 counterexample: two different successful support submissions get the
identical response body (the constant confirmation message) although the
records created in the store differ — so the support response body is not
the created record. -/
theorem support_body_not_record_cex :
    (postSupport supportA 0 emptyDB).code = 201 ∧
    (postSupport supportB 0 emptyDB).code = 201 ∧
    (postSupport supportA 0 emptyDB).body
      = (postSupport supportB 0 emptyDB).body ∧
    (postSupport supportA 0 emptyDB).db.support
      ≠ (postSupport supportB 0 emptyDB).db.support := by
  exact ⟨rfl, rfl, rfl, by decide⟩

/-- C6 witness: the article branch of the amended create contract at a
concrete request. -/
theorem create_response_spec_witness :
    ∃ a, (postArticle validPost 2 emptyDB).body = some a ∧
      (postArticle validPost 2 emptyDB).db.articles
        = emptyDB.articles ++ [a] :=
  (create_response_spec emptyDB 2).1 validPost (by decide)

lemma postArticle_db (r : ArticlePost) (now : Nat) (db : DB) :
    (postArticle r now db).db = db ∨
    (postArticle r now db).db =
      { db with articles := db.articles ++ [mkNewArticle r now db],
                nextArticleId := db.nextArticleId + 1 } := by
  unfold postArticle
  by_cases h1 : (falsyStr r.title || falsyStr r.category ||
      falsyStr r.content) = true
  · rw [if_pos h1]
    exact Or.inl rfl
  · rw [if_neg h1]
    by_cases h2 : articleStatusOk (jsOr r.status "pending") = true
    · rw [if_pos h2]
      exact Or.inr rfl
    · rw [if_neg h2]
      exact Or.inl rfl

lemma approveArticle_db (id : Nat) (b : Option Bool) (now : Nat) (db : DB) :
    (approveArticle id b now db).db = db ∨
    (approveArticle id b now db).db =
      { db with articles := db.articles.map fun a =>
          if a.id == id then approveArticleUpd b now a else a } := by
  cases hf : db.articles.filter (fun a => a.id == id) with
  | nil =>
    rw [approveArticle_of_filter_nil hf]
    exact Or.inl rfl
  | cons a0 rest =>
    rw [approveArticle_of_filter_cons hf]
    exact Or.inr rfl

lemma putArticle_db (id : Nat) (r : ArticlePut) (db : DB) :
    (putArticle id r db).db = db ∨
    ∃ t c, r.title = some t ∧ r.category = some c ∧
      (putArticle id r db).db =
        { db with articles := db.articles.map fun a =>
            if a.id == id then putArticleUpd r t c a else a } := by
  cases hf : db.articles.filter (fun a => a.id == id) with
  | nil =>
    rw [putArticle_of_filter_nil hf]
    exact Or.inl rfl
  | cons a0 rest =>
    cases ht : r.title with
    | none =>
      rw [putArticle_500 hf (Or.inl ht)]
      exact Or.inl rfl
    | some t =>
      cases hc : r.category with
      | none =>
        rw [putArticle_500 hf (Or.inr hc)]
        exact Or.inl rfl
      | some c =>
        rw [putArticle_200 hf ht hc]
        exact Or.inr ⟨t, c, rfl, rfl, rfl⟩

lemma deleteArticle_db (id : Nat) (db : DB) :
    ((∀ a ∈ db.articles, a.id ≠ id) ∧ (deleteArticle id db).db = db) ∨
    (deleteArticle id db).db =
      { db with articles := db.articles.filter fun a => !(a.id == id),
                comments := db.comments.filter fun c =>
                  !(c.articleId == some id) } := by
  unfold deleteArticle
  by_cases h : (db.articles.any fun a => a.id == id) = true
  · rw [if_pos h]
    exact Or.inr rfl
  · rw [if_neg h]
    refine Or.inl ⟨?_, rfl⟩
    intro a ha haid
    apply h
    rw [List.any_eq_true]
    exact ⟨a, ha, by simp [haid]⟩

lemma postAd_db (r : AdPost) (now : Nat) (db : DB) :
    (postAd r now db).db = db ∨
    (postAd r now db).db =
      { db with ads := db.ads ++ [mkNewAd r now db],
                nextAdId := db.nextAdId + 1 } := by
  unfold postAd
  by_cases h1 : (falsyStr r.clientName || falsyStr r.email ||
      falsyStr r.plan) = true
  · rw [if_pos h1]
    exact Or.inl rfl
  · rw [if_neg h1]
    exact Or.inr rfl

lemma approveAd_of_filter_nil {db : DB} {id : Nat}
    (h : db.ads.filter (fun d => d.id == id) = []) :
    approveAd id db = ⟨404, none, db⟩ := by
  unfold approveAd
  rw [h]
  rfl

lemma approveAd_db (id : Nat) (db : DB) :
    (approveAd id db).db = db ∨
    (approveAd id db).db =
      { db with ads := db.ads.map fun d =>
          if d.id == id then approveAdUpd d else d } := by
  cases hf : db.ads.filter (fun d => d.id == id) with
  | nil =>
    rw [approveAd_of_filter_nil hf]
    exact Or.inl rfl
  | cons d0 rest =>
    rw [approveAd_of_filter_cons hf]
    exact Or.inr rfl

lemma deleteAd_db (id : Nat) (db : DB) :
    (deleteAd id db).db =
      { db with ads := db.ads.filter fun d => !(d.id == id) } := rfl

lemma postComment_db (r : CommentPost) (now : Nat) (db : DB) :
    (postComment r now db).db = db ∨
    ∃ cm : Comment, cm.articleId = r.articleId ∧
      (match r.articleId with
       | some aid => db.articles.any fun art => art.id == aid
       | none => true) = true ∧
      (postComment r now db).db =
        { db with comments := db.comments ++ [cm],
                  nextCommentId := db.nextCommentId + 1 } := by
  unfold postComment
  split
  · split
    · next hfk => exact Or.inr ⟨_, rfl, hfk, rfl⟩
    · exact Or.inl rfl
  · exact Or.inl rfl

lemma postSupport_db (r : SupportPost) (now : Nat) (db : DB) :
    (postSupport r now db).db = db ∨
    ∃ m : SupportMessage,
      (postSupport r now db).db =
        { db with support := db.support ++ [m],
                  nextSupportId := db.nextSupportId + 1 } := by
  unfold postSupport
  cases r.name with
  | none => exact Or.inl rfl
  | some n =>
    cases r.email with
    | none => exact Or.inl rfl
    | some e =>
      cases r.message with
      | none => exact Or.inl rfl
      | some m => exact Or.inr ⟨_, rfl⟩

lemma approveArticleUpd_id (b : Option Bool) (now : Nat) (a : Article) :
    (approveArticleUpd b now a).id = a.id := rfl

lemma putArticleUpd_id (r : ArticlePut) (t c : String) (a : Article) :
    (putArticleUpd r t c a).id = a.id := rfl

lemma parents_of_articles_grow {db db' : DB}
    (hc : db'.comments = db.comments)
    (ha : ∀ art ∈ db.articles, ∃ art2 ∈ db'.articles, art2.id = art.id) :
    CommentsHaveParents db → CommentsHaveParents db' := by
  intro h c hcmem a hca
  obtain ⟨art, hart, hid⟩ := h c (hc ▸ hcmem) a hca
  obtain ⟨art2, hart2, hid2⟩ := ha art hart
  exact ⟨art2, hart2, hid2.trans hid⟩

lemma exists_same_id_map (l : List Article) (g : Article → Article)
    (hg : ∀ a, (g a).id = a.id) :
    ∀ art ∈ l, ∃ art2 ∈ l.map g, art2.id = art.id :=
  fun art h => ⟨g art, List.mem_map_of_mem g h, hg art⟩

lemma ite_article_id (id : Nat) (g : Article → Article)
    (hg : ∀ a, (g a).id = a.id) (a : Article) :
    ((if a.id == id then g a else a)).id = a.id := by
  by_cases h : (a.id == id) = true
  · rw [if_pos h, hg]
  · rw [if_neg h]

lemma step_parents {db db' : DB} (hs : Step db db') :
    CommentsHaveParents db → CommentsHaveParents db' := by
  intro h
  cases hs with
  | postArticle r now =>
    rcases postArticle_db r now db with he | he
    · rw [he]; exact h
    · rw [he]
      refine @parents_of_articles_grow db _ rfl ?_ h
      intro art hart
      exact ⟨art, List.mem_append_left _ hart, rfl⟩
  | approveArticle id b now =>
    rcases approveArticle_db id b now db with he | he
    · rw [he]; exact h
    · rw [he]
      refine @parents_of_articles_grow db _ rfl ?_ h
      exact exists_same_id_map db.articles _
        (ite_article_id id _ (approveArticleUpd_id b now))
  | putArticle id r =>
    rcases putArticle_db id r db with he | ⟨t, c, _, _, he⟩
    · rw [he]; exact h
    · rw [he]
      refine @parents_of_articles_grow db _ rfl ?_ h
      exact exists_same_id_map db.articles _
        (ite_article_id id _ (putArticleUpd_id r t c))
  | deleteArticle id =>
    rcases deleteArticle_db id db with ⟨_, he⟩ | he
    · rw [he]; exact h
    · rw [he]
      intro c hcmem a hca
      have hm := List.mem_filter.mp hcmem
      obtain ⟨art, hart, hid⟩ := h c hm.1 a hca
      refine ⟨art, List.mem_filter.mpr ⟨hart, ?_⟩, hid⟩
      have hne : c.articleId ≠ some id := by
        have h2 := hm.2
        simpa using h2
      have hane : a ≠ id := by
        intro hcontr
        exact hne (hcontr ▸ hca)
      simp [hid, hane]
  | postAd r now =>
    rcases postAd_db r now db with he | he <;>
      rw [he] <;> exact fun c hc a ha => h c hc a ha
  | approveAd id =>
    rcases approveAd_db id db with he | he <;>
      rw [he] <;> exact fun c hc a ha => h c hc a ha
  | deleteAd id =>
    rw [deleteAd_db id db]
    exact fun c hc a ha => h c hc a ha
  | postComment r now =>
    rcases postComment_db r now db with he | ⟨cm, hcm, hfk, he⟩
    · rw [he]; exact h
    · rw [he]
      intro c hcmem a hca
      rcases List.mem_append.mp hcmem with hold | hnew
      · exact h c hold a hca
      · have hceq : c = cm := List.mem_singleton.mp hnew
        subst hceq
        rw [hcm] at hca
        rw [hca] at hfk
        obtain ⟨art, hart, hbeq⟩ := List.any_eq_true.mp hfk
        exact ⟨art, hart, by simpa using hbeq⟩
  | postSupport r now =>
    rcases postSupport_db r now db with he | ⟨m, he⟩ <;>
      rw [he] <;> exact fun c hc a ha => h c hc a ha

lemma reachable_parents {db : DB} (h : Reachable db) :
    CommentsHaveParents db := by
  induction h with
  | init => intro c hc a ha; cases hc
  | step _ hs ih => exact step_parents hs ih

/-- C3: in any store satisfying the schema's foreign-key constraint (which
PostgreSQL enforces on every state), deleting an Article removes every
Comment referencing it — listing the comments of the deleted article
afterwards yields the empty sequence; and every store state reachable
through the API keeps the invariant that a Comment referencing an article
id has an existing parent Article. -/
theorem comment_cascade_spec (db db2 : DB) (id : Nat)
    (hfk : CommentsHaveParents db) (hr : Reachable db2) :
    getComments id (deleteArticle id db).db = [] ∧
    CommentsHaveParents db2 := by
  refine ⟨?_, reachable_parents hr⟩
  rcases deleteArticle_db id db with ⟨hno, he⟩ | he
  · rw [he]
    unfold getComments
    have hnil : db.comments.filter (fun c => c.articleId == some id) = [] := by
      rw [List.filter_eq_nil_iff]
      intro c hc hbeq
      have hca : c.articleId = some id := by simpa using hbeq
      obtain ⟨art, hart, hid⟩ := hfk c hc id hca
      exact hno art hart hid
    rw [hnil]
    rfl
  · rw [he]
    unfold getComments
    have hnil : (({ db with
          articles := db.articles.filter fun a => !(a.id == id),
          comments := db.comments.filter fun c =>
            !(c.articleId == some id) } : DB)).comments.filter
            (fun c => c.articleId == some id) = [] := by
      show (db.comments.filter fun c =>
          !(c.articleId == some id)).filter
            (fun c => c.articleId == some id) = []
      rw [List.filter_eq_nil_iff]
      intro c hc hbeq
      have := (List.mem_filter.mp hc).2
      rw [hbeq] at this
      cases this
    rw [hnil]
    rfl

/-- An article row with id 1, one comment attached; used as the concrete
store for the cascade witness. -/
def cascadeComment : Comment :=
  ⟨1, some 1, "Reader", "reader@example.com", "Nice", 4⟩

/-- A schema-valid store with one article (id 1) and one comment on it. -/
def cascadeDB : DB :=
  { emptyDB with articles := [appArticle], comments := [cascadeComment],
                 nextArticleId := 2, nextCommentId := 2 }

/-- The request used to reach a store with one comment through the API. -/
def reachCommentPost : CommentPost :=
  ⟨some 1, some "Reader", some "reader@example.com", some "Nice"⟩

/-- The store after submitting one article through the API. -/
def reachDB1 : DB := (postArticle validPost 0 emptyDB).db

/-- The store after submitting one article and one comment on it. -/
def reachDB2 : DB := (postComment reachCommentPost 1 reachDB1).db

/-- C3 witness: the cascade at a concrete schema-valid store, and the
foreign-key invariant at a concrete reachable store. -/
theorem comment_cascade_spec_witness :
    getComments 1 (deleteArticle 1 cascadeDB).db = [] ∧
    CommentsHaveParents reachDB2 :=
  comment_cascade_spec cascadeDB reachDB2 1 (by decide)
    (Reachable.step
      (Reachable.step Reachable.init (Step.postArticle emptyDB validPost 0))
      (Step.postComment reachDB1 reachCommentPost 1))

lemma approveAdUpd_id_ite (id : Nat) (x : Ad) :
    ((if x.id == id then approveAdUpd x else x)).id = x.id := by
  by_cases hxx : (x.id == id) = true
  · rw [if_pos hxx, approveAdUpd_id]
  · rw [if_neg hxx]

lemma step_idsBounded {db db' : DB} (hs : Step db db') :
    IdsBounded db → IdsBounded db' := by
  rintro ⟨hart, had⟩
  cases hs with
  | postArticle r now =>
    rcases postArticle_db r now db with he | he <;> rw [he]
    · exact ⟨hart, had⟩
    · refine ⟨?_, had⟩
      intro a ha
      rcases List.mem_append.mp ha with hmem | hmem
      · exact Nat.lt_succ_of_lt (hart a hmem)
      · rw [List.mem_singleton.mp hmem]
        exact Nat.lt_succ_self _
  | approveArticle id b now =>
    rcases approveArticle_db id b now db with he | he <;> rw [he]
    · exact ⟨hart, had⟩
    · refine ⟨?_, had⟩
      intro a ha
      obtain ⟨x, hx, hfx⟩ := List.mem_map.mp ha
      rw [← hfx, ite_article_id id _ (approveArticleUpd_id b now)]
      exact hart x hx
  | putArticle id r =>
    rcases putArticle_db id r db with he | ⟨t, c, _, _, he⟩ <;> rw [he]
    · exact ⟨hart, had⟩
    · refine ⟨?_, had⟩
      intro a ha
      obtain ⟨x, hx, hfx⟩ := List.mem_map.mp ha
      rw [← hfx, ite_article_id id _ (putArticleUpd_id r t c)]
      exact hart x hx
  | deleteArticle id =>
    rcases deleteArticle_db id db with ⟨_, he⟩ | he <;> rw [he]
    · exact ⟨hart, had⟩
    · exact ⟨fun a ha => hart a (List.mem_filter.mp ha).1, had⟩
  | postAd r now =>
    rcases postAd_db r now db with he | he <;> rw [he]
    · exact ⟨hart, had⟩
    · refine ⟨hart, ?_⟩
      intro d hd
      rcases List.mem_append.mp hd with hmem | hmem
      · exact Nat.lt_succ_of_lt (had d hmem)
      · rw [List.mem_singleton.mp hmem]
        exact Nat.lt_succ_self _
  | approveAd id =>
    rcases approveAd_db id db with he | he <;> rw [he]
    · exact ⟨hart, had⟩
    · refine ⟨hart, ?_⟩
      intro d hd
      obtain ⟨x, hx, hfx⟩ := List.mem_map.mp hd
      rw [← hfx, approveAdUpd_id_ite id x]
      exact had x hx
  | deleteAd id =>
    rw [deleteAd_db id db]
    exact ⟨hart, fun d hd => had d (List.mem_filter.mp hd).1⟩
  | postComment r now =>
    rcases postComment_db r now db with he | ⟨cm, _, _, he⟩ <;> rw [he] <;>
      exact ⟨hart, had⟩
  | postSupport r now =>
    rcases postSupport_db r now db with he | ⟨m, he⟩ <;> rw [he] <;>
      exact ⟨hart, had⟩

lemma reachable_idsBounded {db : DB} (h : Reachable db) : IdsBounded db := by
  induction h with
  | init =>
    exact ⟨fun a ha => absurd ha (List.not_mem_nil a),
      fun d hd => absurd hd (List.not_mem_nil d)⟩
  | step _ hs ih => exact step_idsBounded hs ih

/-- How one API request may change article statuses: every article in the
new table either keeps its id and status, or keeps its id and now has
status `'published'`, or is a fresh row whose id was not in the old
table. -/
def ArticleStatusEvolves (old new : List Article) : Prop :=
  ∀ a2 ∈ new,
    (∃ a1 ∈ old, a1.id = a2.id ∧
      (a2.status = a1.status ∨ a2.status = some "published")) ∨
    (∀ a1 ∈ old, a1.id ≠ a2.id)

/-- How one API request may change ad statuses: keep the status, set it to
`'active'`, or insert a fresh row. -/
def AdStatusEvolves (old new : List Ad) : Prop :=
  ∀ d2 ∈ new,
    (∃ d1 ∈ old, d1.id = d2.id ∧
      (d2.status = d1.status ∨ d2.status = some "active")) ∨
    (∀ d1 ∈ old, d1.id ≠ d2.id)

lemma articleEvolves_of_sub {l l2 : List Article}
    (hsub : ∀ a ∈ l2, a ∈ l) : ArticleStatusEvolves l l2 :=
  fun a2 h2 => Or.inl ⟨a2, hsub a2 h2, rfl, Or.inl rfl⟩

lemma adEvolves_of_sub {l l2 : List Ad}
    (hsub : ∀ d ∈ l2, d ∈ l) : AdStatusEvolves l l2 :=
  fun d2 h2 => Or.inl ⟨d2, hsub d2 h2, rfl, Or.inl rfl⟩

lemma articleEvolves_append {l : List Article} {x : Article}
    (hne : ∀ a1 ∈ l, a1.id ≠ x.id) : ArticleStatusEvolves l (l ++ [x]) := by
  intro a2 h2
  rcases List.mem_append.mp h2 with hmem | hmem
  · exact Or.inl ⟨a2, hmem, rfl, Or.inl rfl⟩
  · rw [List.mem_singleton.mp hmem]
    exact Or.inr hne

lemma adEvolves_append {l : List Ad} {x : Ad}
    (hne : ∀ d1 ∈ l, d1.id ≠ x.id) : AdStatusEvolves l (l ++ [x]) := by
  intro d2 h2
  rcases List.mem_append.mp h2 with hmem | hmem
  · exact Or.inl ⟨d2, hmem, rfl, Or.inl rfl⟩
  · rw [List.mem_singleton.mp hmem]
    exact Or.inr hne

lemma articleEvolves_map_approve (l : List Article) (id : Nat)
    (b : Option Bool) (now : Nat) :
    ArticleStatusEvolves l
      (l.map fun a => if a.id == id then approveArticleUpd b now a else a) := by
  intro a2 h2
  obtain ⟨x, hx, hfx⟩ := List.mem_map.mp h2
  by_cases hxx : (x.id == id) = true
  · rw [if_pos hxx] at hfx
    refine Or.inl ⟨x, hx, ?_, Or.inr ?_⟩
    · rw [← hfx]
      rfl
    · rw [← hfx]
      rfl
  · rw [if_neg hxx] at hfx
    subst hfx
    exact Or.inl ⟨x, hx, rfl, Or.inl rfl⟩

lemma articleEvolves_map_put (l : List Article) (id : Nat) (r : ArticlePut)
    (t c : String) :
    ArticleStatusEvolves l
      (l.map fun a => if a.id == id then putArticleUpd r t c a else a) := by
  intro a2 h2
  obtain ⟨x, hx, hfx⟩ := List.mem_map.mp h2
  by_cases hxx : (x.id == id) = true
  · rw [if_pos hxx] at hfx
    refine Or.inl ⟨x, hx, ?_, Or.inl ?_⟩
    · rw [← hfx]
      rfl
    · rw [← hfx]
      rfl
  · rw [if_neg hxx] at hfx
    subst hfx
    exact Or.inl ⟨x, hx, rfl, Or.inl rfl⟩

lemma adEvolves_map_approve (l : List Ad) (id : Nat) :
    AdStatusEvolves l
      (l.map fun d => if d.id == id then approveAdUpd d else d) := by
  intro d2 h2
  obtain ⟨x, hx, hfx⟩ := List.mem_map.mp h2
  by_cases hxx : (x.id == id) = true
  · rw [if_pos hxx] at hfx
    refine Or.inl ⟨x, hx, ?_, Or.inr ?_⟩
    · rw [← hfx]
      rfl
    · rw [← hfx]
      rfl
  · rw [if_neg hxx] at hfx
    subst hfx
    exact Or.inl ⟨x, hx, rfl, Or.inl rfl⟩

/-- C7 (amended): along any API step from a reachable store, an existing
Article's status either stays unchanged or becomes `'published'` (the
approve operation, which applies regardless of the current status), and an
existing Ad's status either stays unchanged or becomes `'active'`; other
rows in the new state are fresh inserts.  In particular the approve
operations are not guarded by the current status, so `'rejected'` rows can
still be approved — the one-shot/no-reversal reading is false. -/
theorem status_transition_spec (db db' : DB) (hr : Reachable db)
    (hs : Step db db') :
    ArticleStatusEvolves db.articles db'.articles ∧
    AdStatusEvolves db.ads db'.ads := by
  obtain ⟨hart, had⟩ := reachable_idsBounded hr
  cases hs with
  | postArticle r now =>
    rcases postArticle_db r now db with he | he <;> rw [he]
    · exact ⟨articleEvolves_of_sub fun a h => h,
        adEvolves_of_sub fun d h => h⟩
    · refine ⟨articleEvolves_append ?_, adEvolves_of_sub fun d h => h⟩
      intro a1 h1
      exact Nat.ne_of_lt (hart a1 h1)
  | approveArticle id b now =>
    rcases approveArticle_db id b now db with he | he <;> rw [he]
    · exact ⟨articleEvolves_of_sub fun a h => h,
        adEvolves_of_sub fun d h => h⟩
    · exact ⟨articleEvolves_map_approve db.articles id b now,
        adEvolves_of_sub fun d h => h⟩
  | putArticle id r =>
    rcases putArticle_db id r db with he | ⟨t, c, _, _, he⟩ <;> rw [he]
    · exact ⟨articleEvolves_of_sub fun a h => h,
        adEvolves_of_sub fun d h => h⟩
    · exact ⟨articleEvolves_map_put db.articles id r t c,
        adEvolves_of_sub fun d h => h⟩
  | deleteArticle id =>
    rcases deleteArticle_db id db with ⟨_, he⟩ | he <;> rw [he]
    · exact ⟨articleEvolves_of_sub fun a h => h,
        adEvolves_of_sub fun d h => h⟩
    · exact ⟨articleEvolves_of_sub fun a h => (List.mem_filter.mp h).1,
        adEvolves_of_sub fun d h => h⟩
  | postAd r now =>
    rcases postAd_db r now db with he | he <;> rw [he]
    · exact ⟨articleEvolves_of_sub fun a h => h,
        adEvolves_of_sub fun d h => h⟩
    · refine ⟨articleEvolves_of_sub fun a h => h, adEvolves_append ?_⟩
      intro d1 h1
      exact Nat.ne_of_lt (had d1 h1)
  | approveAd id =>
    rcases approveAd_db id db with he | he <;> rw [he]
    · exact ⟨articleEvolves_of_sub fun a h => h,
        adEvolves_of_sub fun d h => h⟩
    · exact ⟨articleEvolves_of_sub fun a h => h,
        adEvolves_map_approve db.ads id⟩
  | deleteAd id =>
    rw [deleteAd_db id db]
    exact ⟨articleEvolves_of_sub fun a h => h,
      adEvolves_of_sub fun d h => (List.mem_filter.mp h).1⟩
  | postComment r now =>
    rcases postComment_db r now db with he | ⟨cm, _, _, he⟩ <;> rw [he] <;>
      exact ⟨articleEvolves_of_sub fun a h => h,
        adEvolves_of_sub fun d h => h⟩
  | postSupport r now =>
    rcases postSupport_db r now db with he | ⟨m, he⟩ <;> rw [he] <;>
      exact ⟨articleEvolves_of_sub fun a h => h,
        adEvolves_of_sub fun d h => h⟩

/-- A submission carrying the explicit status `'rejected'` (the submit
endpoint stores any status in the `CHECK` enumeration). -/
def rejectedPost : ArticlePost :=
  ⟨some "T", none, some "News", none, none, none, some "C", some "rejected"⟩

/-- The reachable store holding one article with status `'rejected'`. -/
def rejectedDB : DB := (postArticle rejectedPost 0 emptyDB).db

/-- C7 counterexample: a reachable store holds an article whose status is
`'rejected'`; one approve request moves it to `'published'`.  So a status
that has left `'pending'` can still transition — there is a
rejected→published path, contradicting the one-shot/no-reversal claim. -/
theorem rejected_to_published_cex :
    Reachable rejectedDB ∧
    rejectedDB.articles.map Article.status = [some "rejected"] ∧
    (approveArticle 1 none 1 rejectedDB).db.articles.map Article.status
      = [some "published"] := by
  refine ⟨Reachable.step Reachable.init
    (Step.postArticle emptyDB rejectedPost 0), ?_, ?_⟩ <;> decide

/-- C7 witness: the amended transition property along a concrete step from
the empty store. -/
theorem status_transition_spec_witness :
    ArticleStatusEvolves emptyDB.articles
      (postArticle validPost 0 emptyDB).db.articles ∧
    AdStatusEvolves emptyDB.ads (postArticle validPost 0 emptyDB).db.ads :=
  status_transition_spec emptyDB (postArticle validPost 0 emptyDB).db
    Reachable.init (Step.postArticle emptyDB validPost 0)
